import Mathlib

/-!
Shallow embedding of the `zarrs_n5` N5-to-Zarr translation layer, and proofs
about its claims.  Machine integers are modelled as `Nat`/`Int` with explicit
`% 2^w` where the source narrows; fallible Rust code returns an explicit
result type; a Rust panic (e.g. out-of-range slice indexing) is modelled as a
distinct `crash` outcome.
-/

namespace ZarrsN5

/-- Result of running Rust code that can return `Err` or panic.
`crash` models a Rust panic (e.g. out-of-range slice indexing), which is a
distinct outcome from an `Err` return. -/
inductive Outcome (α : Type) where
  | ok (val : α)
  | err (msg : String)
  | crash (msg : String)
deriving Repr, DecidableEq

def Outcome.bind {α β : Type} : Outcome α → (α → Outcome β) → Outcome β
  | .ok a, f => f a
  | .err m, _ => .err m
  | .crash m, _ => .crash m

instance : Monad Outcome where
  pure := Outcome.ok
  bind := Outcome.bind

/-! ## Chunk header (`src/chunk.rs`) -/

/-- The N5 chunk mode (`N5ChunkMode` in `src/chunk.rs`). -/
inductive N5ChunkMode where
  | Default
  | VarLen (num_el : Nat)
  | Object
deriving Repr, DecidableEq

/-- The parsed N5 chunk header (`N5ChunkHeader` in `src/chunk.rs`). -/
structure N5ChunkHeader where
  mode : N5ChunkMode
  shape : List Nat
deriving Repr, DecidableEq

/-- Rust's `u{8n}::from_be_bytes(bytes[off..off+n].try_into()...)`: slicing a
Rust slice out of range panics (modelled by `crash`); when in range the `n`
bytes are combined big-endian.  The `try_into` can then never fail, so its
`map_err` arm is unreachable. -/
def readBE (bytes : List Nat) (off n : Nat) : Outcome Nat :=
  if off + n ≤ bytes.length then
    .ok (((bytes.drop off).take n).foldl (fun acc b => acc * 256 + b) 0)
  else
    .crash "range end index out of range"

/-- The shape-reading loop of `N5ChunkHeader::from_bytes`: reads `count`
big-endian `u32` values starting at byte offset `off`. -/
def readShapeFrom (bytes : List Nat) (off : Nat) : Nat → Outcome (List Nat)
  | 0 => .ok []
  | Nat.succ k => do
    let d ← readBE bytes off 4
    let rest ← readShapeFrom bytes (off + 4) k
    pure (d :: rest)

/-- `N5ChunkHeader::from_bytes` (`src/chunk.rs`): a 2-byte big-endian mode
discriminator, a 2-byte dimension count, `ndim` 4-byte dimensions, and for
mode 1 one extra 4-byte element count.  An unknown discriminator is an `Err`;
a buffer too short for any of the reads panics (`crash`). -/
def N5ChunkHeader.from_bytes (bytes : List Nat) : Outcome N5ChunkHeader := do
  let mode_num ← readBE bytes 0 2
  let ndim ← readBE bytes 2 2
  let shape ← readShapeFrom bytes 4 ndim
  match mode_num with
  | 0 => pure ⟨.Default, shape⟩
  | 1 => do
    let num_el ← readBE bytes (4 + 4 * ndim) 4
    pure ⟨.VarLen num_el, shape⟩
  | 2 => pure ⟨.Object, shape⟩
  | n => Outcome.err ("invalid N5 chunk mode " ++ toString n)

/-- `N5ChunkHeader::data_offset` (`src/chunk.rs`). -/
def N5ChunkHeader.data_offset (h : N5ChunkHeader) : Nat :=
  2 + 2 + h.shape.length * 4 +
    match h.mode with
    | .VarLen _ => 4
    | _ => 0

/-! ## Compression schemes and the compression selector
(`src/metadata.rs` `N5Compression`, `src/codec.rs` `n5compression_to_b2b`) -/

/-- The parsed N5 compression configuration (`N5Compression` in
`src/metadata.rs`).  `block_size` is a `u8`, `level` on gzip an `i8`,
`level` on lz4 a `u64`, `preset` a `u32`. -/
inductive N5Compression where
  | Raw
  | Bzip2 (block_size : Nat)
  | Gzip (level : Int)
  | Lz4 (level : Nat)
  | Xz (preset : Nat)
deriving Repr, DecidableEq

/-- A constructed bytes-to-bytes codec, identified by its scheme and the
resolved numeric level actually handed to the underlying codec constructor. -/
inductive B2BCodec where
  | bz2 (level : Nat)
  | gzip (level : Nat)
deriving Repr, DecidableEq

/-- Modelled from the spec: `Bz2CompressionLevel::new` lives in the external
`zarrs` crate (not under `src/`); per the spec, "Bzip2 block size must be in
`1..=9`; values outside that range are a construction error". -/
def Bz2CompressionLevel.new (n : Nat) : Except String Nat :=
  if 1 ≤ n ∧ n ≤ 9 then .ok n else .error ("invalid bz2 block size " ++ toString n)

/-- Modelled from the spec: `GzipCodec::new` lives in the external `zarrs`
crate (not under `src/`); per the spec's data model, gzip levels are
`0..=9`. -/
def GzipCodec.new (level : Nat) : Except String B2BCodec :=
  if level ≤ 9 then .ok (.gzip level)
  else .error ("invalid gzip level " ++ toString level)

/-- `N5Compression::to_bytes_to_bytes_codec` (`src/metadata.rs`), with the
same body as `n5compression_to_b2b` (`src/codec.rs`): `Raw` needs no
transform; `Bzip2` passes its block size to `Bz2CompressionLevel::new`;
`Gzip` resolves level `-1` to `6`, keeps a non-negative level, and rejects
any other negative level; `Lz4`/`Xz` are rejected as unsupported. -/
def N5Compression.to_bytes_to_bytes_codec : N5Compression → Except String (Option B2BCodec)
  | .Raw => .ok none
  | .Bzip2 block_size => do
    let lvl ← Bz2CompressionLevel.new block_size
    pure (some (.bz2 lvl))
  | .Gzip level => do
    let lvl_int : Nat ←
      if level = -1 then .ok 6
      else if 0 ≤ level then .ok level.toNat
      else .error ("invalid gzip compression level " ++ toString level)
    let codec ← GzipCodec.new lvl_int
    pure (some codec)
  | c => .error ("unsupported N5 compression: " ++ reprStr c)

/-! ## Chunk body codec (`src/codec.rs` `N5Codec`) -/

/-- Modelled from the spec: the `zarrs` `CodecChain` built by
`n5compression_to_chain` (its implementation lives in the external `zarrs`
crate) pairs an optional compression byte-stream transform with the mandatory
big-endian byte-order transform.  The transforms themselves (gzip, bzip2, the
byte codec) are external collaborators, so they are abstract functions
here. -/
structure CodecChainModel where
  compressor : Option (List Nat → Except String (List Nat))
  bytesBig : List Nat → Except String (List Nat)

/-- Modelled from the spec: decoding through the codec chain runs the payload
through the compression transform (when present) and then the byte-order
transform. -/
def CodecChainModel.decode (c : CodecChainModel) (payload : List Nat) :
    Except String (List Nat) :=
  match c.compressor with
  | some d => do
    let mid ← d payload
    c.bytesBig mid
  | none => c.bytesBig payload

/-- Lift an external (`Except`-valued) call into the `Outcome` of the
surrounding Rust function. -/
def outcomeOfExcept {α : Type} : Except String α → Outcome α
  | .ok a => .ok a
  | .error e => .err e

/-- The chunk-mode name used in `Debug` formatting of `N5ChunkMode`
(`{:?}` in the decode error message). -/
def modeName : N5ChunkMode → String
  | .Default => "Default"
  | .VarLen _ => "VarLen"
  | .Object => "Object"

/-- The expected-shape narrowing in `N5Codec::decode` (`src/codec.rs`):
`shape.iter().map(|n| n.get() as u32).rev().collect()` — each `u64` dimension
is truncated to `u32` (`% 2^32`) and the order reversed. -/
def shape_u32 (shape : List Nat) : List Nat :=
  (shape.map (fun n => n % 4294967296)).reverse

/-- `N5Codec::decode` (`src/codec.rs`): parse the chunk header; reject any
mode other than `Default`; reject a header shape different from the reversed,
`u32`-truncated expected shape; then run the payload (the bytes from
`data_offset` to the end) through the codec chain. -/
def N5Codec.decode (codecs : CodecChainModel) (bytes : List Nat)
    (shape : List Nat) : Outcome (List Nat) :=
  match N5ChunkHeader.from_bytes bytes with
  | .crash m => .crash m
  | .err m => .err ("N5 chunk header could not be parsed: " ++ m)
  | .ok header =>
    if header.mode = N5ChunkMode.Default then
      if header.shape = shape_u32 shape then
        outcomeOfExcept (codecs.decode (bytes.drop header.data_offset))
      else
        .err ("N5 chunk header has shape " ++ reprStr header.shape ++
          ", expected " ++ reprStr shape)
    else
      .err ("unsupported N5 chunk mode: " ++ modeName header.mode)

/-! ## Chunk key encoding (`src/chunk_key_encoding.rs`) -/

/-- The loop body of `N5ChunkKeyEncoding::encode`: iterate over the (already
reversed) indices, separating consecutive entries with `/` via the `is_first`
flag, appending each index's decimal representation. -/
def encodeAux : List Nat → Bool → String → String
  | [], _, s => s
  | idx :: rest, is_first, s =>
    let s2 := if is_first then s else s.push '/'
    encodeAux rest false (s2 ++ toString idx)

/-- `N5ChunkKeyEncoding::encode` (`src/chunk_key_encoding.rs`): write the
chunk-grid indices in reverse order, joined with `/`. -/
def N5ChunkKeyEncoding.encode (chunk_grid_indices : List Nat) : String :=
  encodeAux chunk_grid_indices.reverse true ""

/-! ## JSON documents and N5 metadata parsing (`src/metadata.rs`)

JSON values are modelled structurally; numbers are modelled as integers
(serde rejects non-integer numbers for the integer-typed fields below, and no
float-valued field exists in the N5 metadata schema). -/

/-- A JSON value. -/
inductive Json where
  | null
  | bool (b : Bool)
  | num (n : Int)
  | str (s : String)
  | arr (elems : List Json)
  | obj (fields : List (String × Json))

/-- Look a key up in a JSON object's field list (first occurrence). -/
def lookupField (fields : List (String × Json)) (k : String) : Option Json :=
  match fields with
  | [] => none
  | (k', v) :: rest => if k' = k then some v else lookupField rest k

/-- Deserialize a `u64`: a non-negative integer below `2^64`. -/
def parseU64 : Json → Option Nat
  | .num n => if 0 ≤ n ∧ n < 18446744073709551616 then some n.toNat else none
  | _ => none

/-- Deserialize a `Vec<u64>`. -/
def parseU64List : Json → Option (List Nat)
  | .arr xs => xs.mapM parseU64
  | _ => none

/-- Deserialize an integer constrained to `[lo, hi]` (used for `u8`, `i8`,
`u32`). -/
def parseIntIn (lo hi : Int) : Json → Option Int
  | .num n => if lo ≤ n ∧ n ≤ hi then some n else none
  | _ => none

/-- Deserialize a `String`. -/
def parseString : Json → Option String
  | .str s => some s
  | _ => none

/-- Deserialize an `Option<String>` field: absent or `null` is `None`, a
string is `Some`, anything else fails. -/
def parseOptString : Option Json → Option (Option String)
  | none => some none
  | some .null => some none
  | some (.str s) => some (some s)
  | some _ => none

/-- Deserialize `N5Compression` (`src/metadata.rs`): internally tagged by
`"type"` with camelCase variant names; each numeric field is optional with
the source's default (`block_size` 9, gzip `level` -1, lz4 `level` 65536,
`preset` 6).  Note the enum-level `rename_all` renames only variants, so the
field keys keep their Rust names (`block_size`, `level`, `preset`). -/
def parseN5Compression (j : Json) : Option N5Compression :=
  match j with
  | .obj fields =>
    match lookupField fields "type" with
    | some (.str t) =>
      if t = "raw" then some .Raw
      else if t = "bzip2" then
        match lookupField fields "block_size" with
        | none => some (.Bzip2 9)
        | some v => (parseIntIn 0 255 v).map (fun n => .Bzip2 n.toNat)
      else if t = "gzip" then
        match lookupField fields "level" with
        | none => some (.Gzip (-1))
        | some v => (parseIntIn (-128) 127 v).map (fun n => .Gzip n)
      else if t = "lz4" then
        match lookupField fields "level" with
        | none => some (.Lz4 65536)
        | some v => (parseU64 v).map (fun n => .Lz4 n)
      else if t = "xz" then
        match lookupField fields "preset" with
        | none => some (.Xz 6)
        | some v => (parseIntIn 0 4294967295 v).map (fun n => .Xz n.toNat)
      else none
    | _ => none
  | _ => none

/-- N5 group metadata (`N5GroupMetadata` in `src/metadata.rs`): an optional
version string (JSON key `"n5"`) plus all remaining fields flattened into the
attribute map. -/
structure N5GroupMetadata where
  n5_version : Option String
  attributes : List (String × Json)

/-- N5 array metadata (`N5ArrayMetadata` in `src/metadata.rs`).  The JSON
keys are camelCase: `n5`, `dimensions`, `blockSize`, `dataType`,
`compression`; all remaining fields are flattened into the attribute map. -/
structure N5ArrayMetadata where
  n5_version : Option String
  dimensions : List Nat
  block_size : List Nat
  data_type : String
  compression : N5Compression
  attributes : List (String × Json)

/-- N5 metadata (`N5Metadata` in `src/metadata.rs`): an untagged union of the
array and group document shapes. -/
inductive N5Metadata where
  | Array (m : N5ArrayMetadata)
  | Group (m : N5GroupMetadata)

/-- The reserved JSON keys of an N5 array document. -/
def reservedArrayKeys : List String :=
  ["n5", "dimensions", "blockSize", "dataType", "compression"]

/-- Deserialize `N5ArrayMetadata` from a JSON value: the four reserved array
keys are required (with their respective types), `n5` is optional, and every
key outside the reserved set is flattened into `attributes`. -/
def parseN5Array (j : Json) : Option N5ArrayMetadata :=
  match j with
  | .obj fields =>
    (parseOptString (lookupField fields "n5")).bind fun n5v =>
    ((lookupField fields "dimensions").bind parseU64List).bind fun dims =>
    ((lookupField fields "blockSize").bind parseU64List).bind fun bs =>
    ((lookupField fields "dataType").bind parseString).bind fun dt =>
    ((lookupField fields "compression").bind parseN5Compression).bind fun comp =>
    some ⟨n5v, dims, bs, dt, comp,
      fields.filter (fun f => ! reservedArrayKeys.contains f.1)⟩
  | _ => none

/-- Deserialize `N5GroupMetadata` from a JSON value: `n5` is optional and
every other key is flattened into `attributes`. -/
def parseN5Group (j : Json) : Option N5GroupMetadata :=
  match j with
  | .obj fields =>
    (parseOptString (lookupField fields "n5")).bind fun n5v =>
    some ⟨n5v, fields.filter (fun f => ! (f.1 == "n5"))⟩
  | _ => none

/-- Deserialize the untagged `N5Metadata` union: serde tries the variants in
declaration order, so a document that deserializes as an array is an array,
and otherwise the group shape is tried. -/
def parseN5Metadata (j : Json) : Option N5Metadata :=
  match parseN5Array j with
  | some a => some (.Array a)
  | none => (parseN5Group j).map .Group

/-! ## Metadata translation (`src/metadata.rs`) -/

/-- Modelled from the spec: the default v3 name of the external `zarrs`
`RegularBoundedChunkGrid` extension (the spec calls it the "regular bounded"
grid). -/
def regularBoundedName : String := "regular_bounded"

/-- A chunk-grid metadata document: an extension name plus its
`chunk_shape` configuration. -/
structure ChunkGridMetadata where
  name : String
  chunk_shape : List Nat
deriving Repr, DecidableEq

/-- The per-entry check in `convert_chunk_grid`:
`NonZeroU64::new(n).ok_or_else(|| Error::general("zero block size"))`. -/
def checkNonZero (n : Nat) : Except String Nat :=
  if n = 0 then .error "zero block size" else .ok n

/-- Rust's `collect::<Result<Vec<_>, _>>()` over the checked entries: the
first failure aborts the collection. -/
def collectNonZero : List Nat → Except String (List Nat)
  | [] => .ok []
  | n :: rest => do
    let v ← checkNonZero n
    let vs ← collectNonZero rest
    pure (v :: vs)

/-- `convert_chunk_grid` (`src/metadata.rs`): each `block_size` entry is
checked non-zero (`NonZeroU64::new`), the sequence is reversed, and the first
failure aborts the collection; the result is wrapped as a regular bounded
chunk grid configuration. -/
def convert_chunk_grid (block_size : List Nat) : Except String ChunkGridMetadata := do
  let chunk_shape ← collectNonZero block_size.reverse
  pure ⟨regularBoundedName, chunk_shape⟩

/-- `convert_data_type` (`src/metadata.rs`): a fixed table of supported N5
type strings; each maps to the data type of the same canonical v3 name
(the `name_v3` of the external `zarrs` data types is modelled from the spec
as the identical tag), and any other string is an error. -/
def convert_data_type (data_type : String) : Except String String :=
  if data_type = "uint8" ∨ data_type = "int8" ∨ data_type = "int16" ∨
      data_type = "uint16" ∨ data_type = "int32" ∨ data_type = "uint32" ∨
      data_type = "int64" ∨ data_type = "uint64" ∨ data_type = "float32" ∨
      data_type = "float64" then
    .ok data_type
  else
    .error ("unsupported data type: " ++ data_type)

/-- `convert_fill_value` (`src/metadata.rs`): always the number zero. -/
def convert_fill_value : Int := 0

/-- One entry of the translated codec list: the `N5Codec` extension name plus
its configuration, which embeds the original compression scheme
(`N5CodecConfiguration` in `src/codec.rs`). -/
structure CodecMetadata where
  name : String
  compression : N5Compression
deriving Repr, DecidableEq

/-- The translated array metadata document (the fields of the external
`ArrayMetadataV3` populated by the translation). -/
structure ArrayMetadataV3 where
  shape : List Nat
  chunk_grid : ChunkGridMetadata
  data_type : String
  fill_value : Int
  codecs : List CodecMetadata
  chunk_key_encoding : String
  attributes : List (String × Json)

/-- The translated group metadata document. -/
structure GroupMetadataV3 where
  attributes : List (String × Json)

/-- `TryFrom<N5ArrayMetadata> for ArrayMetadataV3` (`src/metadata.rs`):
reverse `dimensions` into the shape; convert the chunk grid, data type and
codec (each may fail, aborting the translation); fill value zero; a single
codec-list entry naming the N5 codec with the compression scheme embedded in
its configuration; the fixed N5 chunk key encoding; attributes carried over
unchanged. -/
def ArrayMetadataV3.tryFrom (value : N5ArrayMetadata) : Except String ArrayMetadataV3 := do
  let shape := value.dimensions.reverse
  let chunk_grid ← convert_chunk_grid value.block_size
  let data_type ← convert_data_type value.data_type
  let fill_value := convert_fill_value
  let _ ← value.compression.to_bytes_to_bytes_codec
  let codec_meta : CodecMetadata := ⟨"zarrs.n5", value.compression⟩
  pure ⟨shape, chunk_grid, data_type, fill_value, [codec_meta], "zarrs.n5",
    value.attributes⟩

/-- The translated node metadata (`NodeMetadataV3`), either array or
group. -/
inductive NodeMetadataV3 where
  | Array (m : ArrayMetadataV3)
  | Group (m : GroupMetadataV3)

/-- `TryFrom<N5Metadata> for NodeMetadataV3` (`src/metadata.rs`): arrays are
translated fallibly, groups directly (attributes carried over). -/
def NodeMetadataV3.tryFrom : N5Metadata → Except String NodeMetadataV3
  | .Array m => (ArrayMetadataV3.tryFrom m).map .Array
  | .Group m => .ok (.Group ⟨m.attributes⟩)

/-! ## Storage interceptor (`src/storage.rs`) -/

/-- Rust's `str::rsplit_once` on a character: split at the last occurrence,
returning the parts before and after it, or `None` when the character does
not occur. -/
def rsplitOnceList (c : Char) : List Char → Option (List Char × List Char)
  | [] => none
  | x :: xs =>
    match rsplitOnceList c xs with
    | some (p, t) => some (x :: p, t)
    | none => if x = c then some ([], xs) else none

/-- `str::rsplit_once` lifted to `String`. -/
def rsplitOnce (s : String) (c : Char) : Option (String × String) :=
  match rsplitOnceList c s.data with
  | some (p, t) => some (⟨p⟩, ⟨t⟩)
  | none => none

/-- `N5Store::intercept_zarr_json` (`src/storage.rs`): split the key at its
last `/` (an absent `/` yields an empty front part and the whole key as final
segment); when the final segment is `zarr.json`, rebuild the key with
`attributes.json` in its place (dropping the separator when the front part is
empty); otherwise `None`. -/
def intercept_zarr_json (key : String) : Option String :=
  match rsplitOnce key '/' with
  | some (front, seg) =>
    if seg = "zarr.json" then
      some (if front = "" then "attributes.json" else front ++ "/" ++ "attributes.json")
    else none
  | none =>
    if key = "zarr.json" then some "attributes.json" else none

/-- Storage errors surfaced by the interceptor (the variants of the external
`StorageError` that this layer constructs or forwards). -/
inductive StorageError where
  | invalidMetadata (key : String) (msg : String)
  | unsupported (msg : String)
  | backend (msg : String)
deriving Repr, DecidableEq

/-- A stored byte blob, modelled at the granularity this layer inspects it:
a blob that parses as a JSON document, a blob that is not valid JSON, or the
serialization of a translated metadata document (which this layer produces
but never re-parses). -/
inductive Bytes where
  | jsonDoc (j : Json)
  | rawBytes (data : List Nat)
  | zarrDoc (m : NodeMetadataV3)

/-- `serde_json::from_reader::<_, N5Metadata>` over a stored blob: only a
valid JSON document can deserialize, via `parseN5Metadata`. -/
def parseN5MetadataBytes : Bytes → Option N5Metadata
  | .jsonDoc j => parseN5Metadata j
  | _ => none

/-- `N5Store::convert_metadata` (`src/storage.rs`): absent bytes pass
through; bytes failing to parse as N5 metadata, or failing the translation,
produce an `InvalidMetadata` error tagged with the fixed key
`"attributes.json"`; the translated document is serialized back
(`serde_json::to_vec` on the translated document is modelled as always
succeeding). -/
def convert_metadata (bytes : Option Bytes) : Except StorageError (Option Bytes) :=
  match bytes with
  | none => .ok none
  | some b =>
    match parseN5MetadataBytes b with
    | none => .error (.invalidMetadata "attributes.json" "could not parse N5 metadata")
    | some n5 =>
      match NodeMetadataV3.tryFrom n5 with
      | .error e => .error (.invalidMetadata "attributes.json"
          ("could not convert N5 metadata to Zarr metadata: " ++ e))
      | .ok zarr => .ok (some (.zarrDoc zarr))

/-- `N5Store::get` (`src/storage.rs`), over the wrapped backend's `get`
(an arbitrary function from keys to bytes or a storage error): an
intercepted `zarr.json` request fetches the rewritten key from the backend
and converts the result; any other request is forwarded unmodified. -/
def N5Store.get (inner : String → Except StorageError (Option Bytes))
    (key : String) : Except StorageError (Option Bytes) :=
  match intercept_zarr_json key with
  | some k => do
    let b ← inner k
    convert_metadata b
  | none => inner key

/-! ## Concrete instances used to exercise the definitions -/

/-- A codec chain with no compressor and an identity byte-order transform,
used to observe `N5Codec.decode` on concrete inputs. -/
def idChain : CodecChainModel := ⟨none, fun l => .ok l⟩

/-- A chunk blob: mode `Default`, one dimension, declared size `0`,
payload `[7]`. -/
def c4bytes : List Nat := [0, 0, 0, 1, 0, 0, 0, 0, 7]

/-- A chunk blob: mode `Default`, one dimension, declared size `3`,
payload `[20, 21]`. -/
def c4wBytes : List Nat := [0, 0, 0, 1, 0, 0, 0, 3, 20, 21]

/-- A chunk blob: mode `VarLen` (discriminator 1), zero dimensions, element
count `5`. -/
def c9bytes : List Nat := [0, 1, 0, 0, 0, 0, 0, 5]

/-- A chunk blob: mode `Default`, one dimension, declared size `0`,
payload `[9]`. -/
def c10bytes : List Nat := [0, 0, 0, 1, 0, 0, 0, 0, 9]

/-- An N5 array metadata value with `dimensions=[10,20,30]`,
`blockSize=[10,10,10]`, `dataType="float32"`, raw compression. -/
def c2Meta : N5ArrayMetadata := ⟨none, [10, 20, 30], [10, 10, 10], "float32", .Raw, []⟩

/-- The translation of `c2Meta`. -/
def c2Out : ArrayMetadataV3 :=
  ⟨[30, 20, 10], ⟨regularBoundedName, [10, 10, 10]⟩, "float32", 0,
    [⟨"zarrs.n5", .Raw⟩], "zarrs.n5", []⟩

/-- A JSON object carrying all four reserved array keys, but with a
`dimensions` value that does not deserialize as a `Vec<u64>`. -/
def c6Fields : List (String × Json) :=
  [("dimensions", .str "x"), ("blockSize", .arr []),
   ("dataType", .str "t"), ("compression", .obj [("type", .str "raw")])]

/-- A JSON object with a single unreserved key. -/
def c6GroupFields : List (String × Json) := [("foo", .num 1)]

/-- A backend whose every key holds a blob that is not valid JSON. -/
def c7Backend : String → Except StorageError (Option Bytes) :=
  fun _ => .ok (some (.rawBytes [0]))

/-- A backend with no entries. -/
def emptyBackend : String → Except StorageError (Option Bytes) :=
  fun _ => .ok none

/-! ## Helper lemmas -/

theorem string_push_slash (s : String) : s.push '/' = s ++ "/" := rfl

theorem string_empty_append (s : String) : "" ++ s = s := rfl

theorem encodeAux_eq_go (l : List Nat) (s : String) :
    encodeAux l false s = String.intercalate.go s "/" (l.map toString) := by
  induction l generalizing s with
  | nil => rfl
  | cons i rest ih =>
    show encodeAux rest false ((s.push '/') ++ toString i) = _
    rw [string_push_slash, ih]
    rfl

theorem encode_eq_intercalate (indices : List Nat) :
    N5ChunkKeyEncoding.encode indices =
      String.intercalate "/" (indices.reverse.map toString) := by
  unfold N5ChunkKeyEncoding.encode
  cases h : indices.reverse with
  | nil => rfl
  | cons x xs =>
    show encodeAux xs false ("" ++ toString x) = _
    rw [string_empty_append, encodeAux_eq_go]
    rfl

theorem rsplitOnceList_eq_none (c : Char) (l : List Char) (h : c ∉ l) :
    rsplitOnceList c l = none := by
  induction l with
  | nil => rfl
  | cons x xs ih =>
    have hx : ¬ x = c := fun hxc => h (hxc ▸ List.mem_cons_self x xs)
    have hxs : c ∉ xs := fun hm => h (List.mem_cons_of_mem x hm)
    simp [rsplitOnceList, ih hxs, hx]

theorem rsplitOnceList_append (c : Char) (p t : List Char) (h : c ∉ t) :
    rsplitOnceList c (p ++ c :: t) = some (p, t) := by
  induction p with
  | nil =>
    simp [rsplitOnceList, rsplitOnceList_eq_none c t h]
  | cons x xs ih =>
    simp [rsplitOnceList, ih]

theorem rsplitOnceList_eq_some (c : Char) (l p t : List Char)
    (h : rsplitOnceList c l = some (p, t)) : l = p ++ c :: t := by
  induction l generalizing p t with
  | nil => simp [rsplitOnceList] at h
  | cons x xs ih =>
    rw [rsplitOnceList] at h
    cases hx : rsplitOnceList c xs with
    | some pt =>
      rw [hx] at h
      obtain ⟨p', t'⟩ := pt
      simp only [Option.some.injEq, Prod.mk.injEq] at h
      obtain ⟨hp, ht⟩ := h
      rw [← hp, ← ht, ih p' t' hx]
      simp
    | none =>
      rw [hx] at h
      by_cases hxc : x = c
      · simp [hxc] at h
        obtain ⟨hp, ht⟩ := h
        subst hp; subst ht
        simp [hxc]
      · simp [hxc] at h

theorem slash_not_mem_zarr_json : '/' ∉ "zarr.json".data := by decide

theorem rsplitOnce_slash_zarr_json (front : String) :
    rsplitOnce (front ++ "/zarr.json") '/' = some (front, "zarr.json") := by
  unfold rsplitOnce
  have hd : (front ++ "/zarr.json").data = front.data ++ '/' :: "zarr.json".data := rfl
  rw [hd, rsplitOnceList_append '/' front.data "zarr.json".data slash_not_mem_zarr_json]

theorem intercept_zarr_json_bare :
    intercept_zarr_json "zarr.json" = some "attributes.json" := rfl

theorem intercept_zarr_json_deep (front : String) (h : ¬ front = "") :
    intercept_zarr_json (front ++ "/zarr.json") = some (front ++ "/attributes.json") := by
  unfold intercept_zarr_json
  rw [rsplitOnce_slash_zarr_json front]
  simp [h]
  apply String.ext
  show (front.data ++ "/".data) ++ "attributes.json".data =
    front.data ++ "/attributes.json".data
  rw [List.append_assoc]
  rfl

theorem intercept_zarr_json_other (key : String) (h0 : ¬ key = "zarr.json")
    (h1 : ∀ front : String, ¬ key = front ++ "/zarr.json") :
    intercept_zarr_json key = none := by
  unfold intercept_zarr_json
  cases hs : rsplitOnce key '/' with
  | none => simp [h0]
  | some pt =>
    obtain ⟨front, seg⟩ := pt
    by_cases hseg : seg = "zarr.json"
    · exfalso
      unfold rsplitOnce at hs
      cases hl : rsplitOnceList '/' key.data with
      | none => rw [hl] at hs; exact Option.noConfusion hs
      | some pt' =>
        obtain ⟨p, t⟩ := pt'
        rw [hl] at hs
        simp at hs
        obtain ⟨hp, ht⟩ := hs
        have hkey : key.data = p ++ '/' :: t := rsplitOnceList_eq_some '/' key.data p t hl
        apply h1 front
        have hfront : front.data = p := by rw [← hp]
        have hsegd : seg.data = t := by rw [← ht]
        apply String.ext
        rw [hkey]
        show p ++ '/' :: t = front.data ++ ('/' :: "zarr.json".data)
        rw [hfront, ← hsegd, hseg]
    · simp [hseg]

theorem collectNonZero_ok (l l' : List Nat) (h : collectNonZero l = .ok l') :
    l' = l := by
  induction l generalizing l' with
  | nil =>
    simp only [collectNonZero, Except.ok.injEq] at h
    exact h.symm
  | cons x xs ih =>
    rw [collectNonZero] at h
    by_cases hx : x = 0
    · simp [checkNonZero, hx, Except.bind, bind] at h
    · cases hxs : collectNonZero xs with
      | error e => simp [checkNonZero, hx, hxs, Except.bind, bind] at h
      | ok ys =>
        simp [checkNonZero, hx, hxs, Except.bind, bind, pure, Except.pure] at h
        rw [← h, ih ys hxs]

theorem collectNonZero_zero (l : List Nat) (h : 0 ∈ l) :
    collectNonZero l = .error "zero block size" := by
  induction l with
  | nil => cases h
  | cons x xs ih =>
    rw [collectNonZero]
    by_cases hx : x = 0
    · simp [checkNonZero, hx, Except.bind, bind]
    · have hxs : 0 ∈ xs := by
        cases List.mem_cons.mp h with
        | inl h0 => exact absurd h0.symm hx
        | inr h0 => exact h0
      simp [checkNonZero, hx, ih hxs, Except.bind, bind]

theorem convert_chunk_grid_ok (block_size : List Nat) (g : ChunkGridMetadata)
    (h : convert_chunk_grid block_size = .ok g) :
    g.name = regularBoundedName ∧ g.chunk_shape = block_size.reverse := by
  unfold convert_chunk_grid at h
  cases hm : collectNonZero block_size.reverse with
  | error e => simp [hm, Except.bind, bind] at h
  | ok cs =>
    simp [hm, Except.bind, bind, pure, Except.pure] at h
    rw [← h]
    exact ⟨rfl, collectNonZero_ok _ _ hm⟩

theorem convert_chunk_grid_zero (block_size : List Nat) (h : 0 ∈ block_size) :
    convert_chunk_grid block_size = .error "zero block size" := by
  unfold convert_chunk_grid
  rw [collectNonZero_zero block_size.reverse (List.mem_reverse.mpr h)]
  rfl

/-! ## Claim theorems -/

/-- Claim C3: for every sequence of chunk-grid indices, the N5 chunk key
encoding produces the indices in reverse order joined with `/`, with no
leading or trailing separator; in particular `[2, 0, 1]` encodes to
`"1/0/2"` and `[5]` encodes to `"5"`. -/
theorem c3_chunk_key_encoding_reverses :
    (∀ indices : List Nat, N5ChunkKeyEncoding.encode indices =
      String.intercalate "/" (indices.reverse.map toString)) ∧
    N5ChunkKeyEncoding.encode [2, 0, 1] = "1/0/2" ∧
    N5ChunkKeyEncoding.encode [5] = "5" :=
  ⟨encode_eq_intercalate, rfl, rfl⟩

/-- Claim C5 (code bug): chunk header parsing does not return a
`FormatError` on a too-short buffer — it crashes (a Rust panic from
out-of-range slice indexing), here on the empty buffer; the invalid
mode-discriminator case does return an error as claimed. -/
theorem c5_short_buffer_crashes :
    N5ChunkHeader.from_bytes [] = .crash "range end index out of range" ∧
    N5ChunkHeader.from_bytes [0, 3, 0, 0] = .err "invalid N5 chunk mode 3" :=
  ⟨rfl, rfl⟩

/-- Claim C2: translating N5 array metadata yields a shape equal to the
reversed `dimensions` and a regular-bounded chunk grid whose chunk shape is
the reversed `block_size`; a zero `block_size` entry makes the translation
fail instead. -/
theorem c2_array_translation_shapes (m : N5ArrayMetadata) :
    (∀ out, ArrayMetadataV3.tryFrom m = .ok out →
      out.shape = m.dimensions.reverse ∧
      out.chunk_grid.chunk_shape = m.block_size.reverse ∧
      out.chunk_grid.name = regularBoundedName) ∧
    (0 ∈ m.block_size → ArrayMetadataV3.tryFrom m = .error "zero block size") := by
  constructor
  · intro out hout
    unfold ArrayMetadataV3.tryFrom at hout
    cases hcg : convert_chunk_grid m.block_size with
    | error e => simp [hcg, Except.bind, bind] at hout
    | ok g =>
      rw [hcg] at hout
      cases hdt : convert_data_type m.data_type with
      | error e => simp [hdt, Except.bind, bind] at hout
      | ok dt =>
        rw [hdt] at hout
        cases hcc : m.compression.to_bytes_to_bytes_codec with
        | error e => simp [hcc, Except.bind, bind] at hout
        | ok cc =>
          simp [hcc, Except.bind, bind, pure, Except.pure] at hout
          obtain ⟨hname, hcs⟩ := convert_chunk_grid_ok m.block_size g hcg
          rw [← hout]
          exact ⟨rfl, hcs, hname⟩
  · intro hz
    unfold ArrayMetadataV3.tryFrom
    rw [convert_chunk_grid_zero m.block_size hz]
    rfl

/-- Witness for C2: the translation of `dimensions=[10,20,30]`,
`blockSize=[10,10,10]`, `dataType="float32"`, raw compression reverses the
dimensions and block size. -/
theorem c2_witness :
    c2Out.shape = c2Meta.dimensions.reverse ∧
    c2Out.chunk_grid.chunk_shape = c2Meta.block_size.reverse ∧
    c2Out.chunk_grid.name = regularBoundedName :=
  (c2_array_translation_shapes c2Meta).1 c2Out (by rfl)

/-- Claim C1: a `get` on the storage interceptor for a key whose final path
segment is `zarr.json` fetches from the wrapped backend the key with that
segment replaced by `attributes.json` (the bare key `zarr.json` fetches
`attributes.json`); every other key is forwarded unmodified. -/
theorem c1_zarr_json_interception
    (inner : String → Except StorageError (Option Bytes)) (key : String) :
    (key = "zarr.json" →
      N5Store.get inner key = (inner "attributes.json" >>= convert_metadata)) ∧
    (∀ front : String, ¬ front = "" → key = front ++ "/zarr.json" →
      N5Store.get inner key =
        (inner (front ++ "/attributes.json") >>= convert_metadata)) ∧
    ((¬ key = "zarr.json" ∧ ∀ front : String, ¬ key = front ++ "/zarr.json") →
      N5Store.get inner key = inner key) := by
  refine ⟨?_, ?_, ?_⟩
  · intro hkey
    subst hkey
    unfold N5Store.get
    rw [intercept_zarr_json_bare]
  · intro front hfront hkey
    subst hkey
    unfold N5Store.get
    rw [intercept_zarr_json_deep front hfront]
  · intro ⟨h0, h1⟩
    unfold N5Store.get
    rw [intercept_zarr_json_other key h0 h1]

/-- Witness for C1: a request for `"a/b/zarr.json"` fetches
`"a/b/attributes.json"` from the backend. -/
theorem c1_witness :
    N5Store.get emptyBackend "a/b/zarr.json" =
      (emptyBackend "a/b/attributes.json" >>= convert_metadata) :=
  (c1_zarr_json_interception emptyBackend "a/b/zarr.json").2.1 "a/b"
    (by decide) (by rfl)

/-- Claim C9: decoding a chunk whose parsed header has any mode other than
`Default` fails with an error naming the unsupported mode, regardless of the
payload. -/
theorem c9_non_default_mode_rejected (codecs : CodecChainModel)
    (bytes shape : List Nat) (h : N5ChunkHeader)
    (hparse : N5ChunkHeader.from_bytes bytes = .ok h)
    (hmode : ¬ h.mode = N5ChunkMode.Default) :
    N5Codec.decode codecs bytes shape =
      .err ("unsupported N5 chunk mode: " ++ modeName h.mode) := by
  unfold N5Codec.decode
  rw [hparse]
  simp [hmode]

/-- Witness for C9: a `VarLen` chunk (mode discriminator 1) is rejected. -/
theorem c9_witness :
    N5Codec.decode idChain c9bytes [] = .err "unsupported N5 chunk mode: VarLen" :=
  c9_non_default_mode_rejected idChain c9bytes [] ⟨.VarLen 5, []⟩ (by rfl) (by decide)

/-- Claim C4 counterexample: with expected shape `[2^32]` and a header
declaring dimension `0`, the reversed header shape differs from the expected
shape as stated by the claim, yet decoding succeeds (the check truncates the
expected dimension to `u32`). -/
theorem c4_counterexample :
    N5Codec.decode idChain c4bytes [4294967296] = .ok [7] ∧
    N5ChunkHeader.from_bytes c4bytes = .ok ⟨.Default, [0]⟩ ∧
    ¬ (([0] : List Nat).reverse = [4294967296]) :=
  ⟨rfl, rfl, by decide⟩

/-- Claim C4 as amended: for a well-formed `Default`-mode header, decoding
fails when the reversed header shape differs from the expected shape
truncated entrywise to `u32` (`% 2^32`); when they agree, the payload (the
bytes from `data_offset` to the end) is run through the compression
transform (when configured) and then the byte-order transform. -/
theorem c4_decode_truncated_shape_check (codecs : CodecChainModel)
    (bytes shape : List Nat) (h : N5ChunkHeader)
    (hparse : N5ChunkHeader.from_bytes bytes = .ok h)
    (hmode : h.mode = N5ChunkMode.Default) :
    (h.shape.reverse = shape.map (fun d => d % 4294967296) →
      N5Codec.decode codecs bytes shape =
        outcomeOfExcept (codecs.decode (bytes.drop h.data_offset))) ∧
    (¬ h.shape.reverse = shape.map (fun d => d % 4294967296) →
      N5Codec.decode codecs bytes shape =
        .err ("N5 chunk header has shape " ++ reprStr h.shape ++
          ", expected " ++ reprStr shape)) := by
  have hiff : h.shape = shape_u32 shape ↔
      h.shape.reverse = shape.map (fun d => d % 4294967296) := by
    unfold shape_u32
    constructor
    · intro he; rw [he, List.reverse_reverse]
    · intro he; rw [← he, List.reverse_reverse]
  constructor
  · intro he
    unfold N5Codec.decode
    rw [hparse]
    simp [hmode, hiff.mpr he]
  · intro hne
    unfold N5Codec.decode
    rw [hparse]
    have : ¬ h.shape = shape_u32 shape := fun hc => hne (hiff.mp hc)
    simp [hmode, this]

/-- Witness for C4: a header declaring shape `[3]` against expected shape
`[3]` decodes to the codec chain applied to the payload. -/
theorem c4_witness :
    N5Codec.decode idChain c4wBytes [3] =
      outcomeOfExcept (idChain.decode (c4wBytes.drop
        (N5ChunkHeader.data_offset ⟨.Default, [3]⟩))) :=
  (c4_decode_truncated_shape_check idChain c4wBytes [3] ⟨.Default, [3]⟩
    (by rfl) (by rfl)).1 (by decide)

/-- Claim C10: the decode shape check compares the header shape with the
expected shape truncated entrywise to `u32` (`% 2^32`) and reversed, so
corresponding positions are treated as equal exactly when the header value
equals the expected value mod `2^32`; in particular an expected dimension of
`2^32` is accepted against a header dimension of `0` and the chunk decodes
successfully. -/
theorem c10_expected_shape_truncation :
    (∀ shape hs : List Nat, hs = shape_u32 shape ↔
      hs.reverse = shape.map (fun d => d % 4294967296)) ∧
    N5ChunkHeader.from_bytes c10bytes = .ok ⟨.Default, [0]⟩ ∧
    N5Codec.decode idChain c10bytes [4294967296] = .ok [9] := by
  refine ⟨fun shape hs => ?_, rfl, rfl⟩
  unfold shape_u32
  constructor
  · intro he; rw [he, List.reverse_reverse]
  · intro he; rw [← he, List.reverse_reverse]

/-- Claim C8: gzip level `-1` resolves to `6`, a non-negative level is passed
through to the gzip codec constructor unchanged, and other negative levels
are an error; bzip2 block sizes in `1..=9` succeed and anything else is a
construction error. -/
theorem c8_compression_construction :
    N5Compression.to_bytes_to_bytes_codec (.Gzip (-1)) = .ok (some (.gzip 6)) ∧
    (∀ n : Int, 0 ≤ n →
      N5Compression.to_bytes_to_bytes_codec (.Gzip n) =
        (GzipCodec.new n.toNat).map some) ∧
    (∀ n : Int, n < -1 →
      N5Compression.to_bytes_to_bytes_codec (.Gzip n) =
        .error ("invalid gzip compression level " ++ toString n)) ∧
    (∀ bs : Nat, 1 ≤ bs → bs ≤ 9 →
      N5Compression.to_bytes_to_bytes_codec (.Bzip2 bs) = .ok (some (.bz2 bs))) ∧
    (∀ bs : Nat, bs = 0 ∨ 9 < bs →
      N5Compression.to_bytes_to_bytes_codec (.Bzip2 bs) =
        .error ("invalid bz2 block size " ++ toString bs)) := by
  refine ⟨rfl, ?_, ?_, ?_, ?_⟩
  · intro n hn
    have hne : ¬ n = -1 := by omega
    unfold N5Compression.to_bytes_to_bytes_codec
    simp only [hne, ite_false, hn, ite_true]
    cases hg : GzipCodec.new n.toNat with
    | error e => simp [hg, Except.bind, bind, Except.map]
    | ok c => simp [hg, Except.bind, bind, Except.map, pure, Except.pure]
  · intro n hn
    have hne : ¬ n = -1 := by omega
    have hneg : ¬ 0 ≤ n := by omega
    unfold N5Compression.to_bytes_to_bytes_codec
    simp [hne, hneg, Except.bind, bind]
  · intro bs h1 h9
    unfold N5Compression.to_bytes_to_bytes_codec
    simp [Bz2CompressionLevel.new, h1, h9, Except.bind, bind, pure, Except.pure]
  · intro bs hout
    have hno : ¬ (1 ≤ bs ∧ bs ≤ 9) := by omega
    unfold N5Compression.to_bytes_to_bytes_codec
    simp [Bz2CompressionLevel.new, hno, Except.bind, bind]

/-- Witness for C8: gzip level `5` is passed through, `-2` is rejected,
bzip2 block size `1` succeeds and `10` is rejected. -/
theorem c8_witness :
    N5Compression.to_bytes_to_bytes_codec (.Gzip 5) =
      (GzipCodec.new (5 : Int).toNat).map some ∧
    N5Compression.to_bytes_to_bytes_codec (.Gzip (-2)) =
      .error "invalid gzip compression level -2" ∧
    N5Compression.to_bytes_to_bytes_codec (.Bzip2 1) = .ok (some (.bz2 1)) ∧
    N5Compression.to_bytes_to_bytes_codec (.Bzip2 10) =
      .error "invalid bz2 block size 10" :=
  ⟨c8_compression_construction.2.1 5 (by decide),
   c8_compression_construction.2.2.1 (-2) (by decide),
   c8_compression_construction.2.2.2.1 1 (by decide) (by decide),
   c8_compression_construction.2.2.2.2 10 (Or.inr (by decide))⟩

theorem parseN5Array_obj_some_iff (fields : List (String × Json)) :
    (∃ a, parseN5Array (.obj fields) = some a) ↔
    (∃ nv, parseOptString (lookupField fields "n5") = some nv) ∧
    (∃ dims, (lookupField fields "dimensions").bind parseU64List = some dims) ∧
    (∃ bs, (lookupField fields "blockSize").bind parseU64List = some bs) ∧
    (∃ dt, (lookupField fields "dataType").bind parseString = some dt) ∧
    (∃ comp, (lookupField fields "compression").bind parseN5Compression = some comp) := by
  constructor
  · rintro ⟨a, ha⟩
    simp only [parseN5Array, Option.bind_eq_some, Option.some.injEq] at ha
    obtain ⟨nv, hnv, dims, hdims, bs, hbs, dt, hdt, comp, hcomp, _⟩ := ha
    exact ⟨⟨nv, hnv⟩, ⟨dims, Option.bind_eq_some.mpr hdims⟩,
      ⟨bs, Option.bind_eq_some.mpr hbs⟩, ⟨dt, Option.bind_eq_some.mpr hdt⟩,
      ⟨comp, Option.bind_eq_some.mpr hcomp⟩⟩
  · rintro ⟨⟨nv, hnv⟩, ⟨dims, hdims⟩, ⟨bs, hbs⟩, ⟨dt, hdt⟩, ⟨comp, hcomp⟩⟩
    refine ⟨⟨nv, dims, bs, dt, comp,
      fields.filter (fun f => ! reservedArrayKeys.contains f.1)⟩, ?_⟩
    simp [parseN5Array, hnv, hdims, hbs, hdt, hcomp]

/-- Claim C6 counterexample: a JSON object carrying all four reserved keys
(`dimensions`/`blockSize`/`dataType`/`compression`) whose `dimensions` value
is not a `u64` array parses as *group* metadata, and the resulting group
carries the reserved keys among its attributes — contradicting both halves
of the claim. -/
theorem c6_counterexample :
    parseN5Metadata (.obj c6Fields) = some (.Group ⟨none, c6Fields⟩) ∧
    lookupField c6Fields "dimensions" = some (.str "x") :=
  ⟨rfl, rfl⟩

/-- Claim C6 as amended: a JSON object parses as array metadata iff all four
reserved keys are present *with values of the required types* (and an `n5`
key, when present, holds a string or null); a document that parses as group
metadata may carry reserved keys — every key other than `n5` is kept in its
attribute map. -/
theorem c6_structural_disambiguation (fields : List (String × Json)) :
    ((∃ a, parseN5Metadata (.obj fields) = some (.Array a)) ↔
      (∃ nv, parseOptString (lookupField fields "n5") = some nv) ∧
      (∃ dims, (lookupField fields "dimensions").bind parseU64List = some dims) ∧
      (∃ bs, (lookupField fields "blockSize").bind parseU64List = some bs) ∧
      (∃ dt, (lookupField fields "dataType").bind parseString = some dt) ∧
      (∃ comp, (lookupField fields "compression").bind parseN5Compression = some comp)) ∧
    (∀ g, parseN5Metadata (.obj fields) = some (.Group g) →
      g.attributes = fields.filter (fun f => ! (f.1 == "n5"))) := by
  constructor
  · rw [← parseN5Array_obj_some_iff]
    unfold parseN5Metadata
    cases hA : parseN5Array (.obj fields) with
    | some a =>
      simp only [Option.some.injEq]
      constructor
      · intro _; exact ⟨a, rfl⟩
      · rintro ⟨a', _⟩; exact ⟨a, rfl⟩
    | none =>
      constructor
      · rintro ⟨a, ha⟩
        cases hG : parseN5Group (.obj fields) with
        | none => rw [hG] at ha; simp at ha
        | some g => rw [hG] at ha; simp at ha
      · rintro ⟨a, ha⟩
        exact absurd ha (by simp [hA])
  · intro g hg
    unfold parseN5Metadata at hg
    cases hA : parseN5Array (.obj fields) with
    | some a => rw [hA] at hg; simp at hg
    | none =>
      rw [hA] at hg
      cases hOpt : parseOptString (lookupField fields "n5") with
      | none => simp [parseN5Group, hOpt] at hg
      | some nv =>
        simp [parseN5Group, hOpt] at hg
        rw [← hg]

/-- Witness for C6 (amended): a one-key object parses as a group keeping its
key as an attribute. -/
theorem c6_witness :
    (⟨none, c6GroupFields⟩ : N5GroupMetadata).attributes =
      c6GroupFields.filter (fun f => ! (f.1 == "n5")) :=
  (c6_structural_disambiguation c6GroupFields).2 ⟨none, c6GroupFields⟩ (by rfl)

/-- Claim C7 counterexample: a request for `"a/b/zarr.json"` whose backend
content fails to parse yields an `InvalidMetadata` error tagged with the
fixed key `"attributes.json"` — not the original requested key. -/
theorem c7_counterexample :
    N5Store.get c7Backend "a/b/zarr.json" =
      .error (.invalidMetadata "attributes.json" "could not parse N5 metadata") ∧
    ¬ (("attributes.json" : String) = "a/b/zarr.json") :=
  ⟨rfl, by decide⟩

/-- Claim C7 as amended: when the interceptor fetches bytes for a rewritten
metadata key and they fail to parse (or translate), the `InvalidMetadata`
error is tagged with the fixed key `"attributes.json"`, regardless of the
key the caller requested. -/
theorem c7_error_tagged_fixed_key
    (inner : String → Except StorageError (Option Bytes)) (key k : String)
    (hint : intercept_zarr_json key = some k)
    (b : Option Bytes) (hb : inner k = .ok b) :
    (∀ key' msg, N5Store.get inner key = .error (.invalidMetadata key' msg) →
      key' = "attributes.json") ∧
    (∀ bb, b = some bb → parseN5MetadataBytes bb = none →
      N5Store.get inner key =
        .error (.invalidMetadata "attributes.json" "could not parse N5 metadata")) := by
  have hget : N5Store.get inner key = convert_metadata b := by
    unfold N5Store.get
    rw [hint]
    show (inner k >>= convert_metadata) = _
    rw [hb]
    rfl
  constructor
  · intro key' msg h
    rw [hget] at h
    cases b with
    | none => simp [convert_metadata] at h
    | some bb =>
      cases hp : parseN5MetadataBytes bb with
      | none =>
        simp [convert_metadata, hp] at h
        first
        | exact h.1
        | exact h.1.symm
      | some n5 =>
        cases ht : NodeMetadataV3.tryFrom n5 with
        | error e =>
          simp [convert_metadata, hp, ht] at h
          first
          | exact h.1
          | exact h.1.symm
        | ok z =>
          simp [convert_metadata, hp, ht] at h
  · intro bb hbb hp
    subst hbb
    rw [hget]
    simp [convert_metadata, hp]

/-- Witness for C7 (amended): a bare `zarr.json` request over unparseable
backend bytes produces the error with the fixed tag. -/
theorem c7_witness :
    N5Store.get c7Backend "zarr.json" =
      .error (.invalidMetadata "attributes.json" "could not parse N5 metadata") :=
  (c7_error_tagged_fixed_key c7Backend "zarr.json" "attributes.json" (by rfl)
    (some (.rawBytes [0])) (by rfl)).2 (.rawBytes [0]) rfl (by rfl)

end ZarrsN5
